import Mathlib

/-!
# Sphere Game Data — verification of the reconstruction-and-analysis engine

Shallow embedding of the analysis core of the `sphere-game-data-app`
repository: event grouping and game validation, response-time extraction,
the descriptive-statistics helpers, Pearson correlation, the chi-square
test, and simple linear regression.

Modelling conventions:
* A raw event's `event_at` ISO-8601 timestamp is modelled as an integer
  count of milliseconds (`ℤ`), which is exactly what the JS code computes
  with via `new Date(x) - new Date(y)`.
* JS numbers are modelled as `Option ℚ`: `some q` is a finite number,
  `none` stands for the non-finite values (`NaN`, `±Infinity`), which the
  statistics helpers all filter out with
  `values.filter(v => !isNaN(v) && isFinite(v))`.  Distinct finite values
  are assumed to have distinct string representations (true of JS number
  formatting), which is what the frequency-object model below relies on.
* Nullable string fields are `Option String`; JS truthiness on them
  (`item.session_id && ...`) is "present and non-empty".
* JS `Array.prototype.sort` is stable; we model the sorts with
  `List.insertionSort`, which is a stable `≤`-sort.
* `sqrt`, `exp` and the error-function approximation live in `ℝ`; every
  quantity a claim evaluates concretely is kept in computable `ℚ`.
-/

namespace SphereGame

/-- A raw telemetry event (`RawEvent` in the spec).  Fields not consumed by
the analysis code (e.g. `game_color` is only counted for a frequency chart)
are included for completeness. -/
structure Event where
  event_at : ℤ
  event_type : String
  player_id : Option String := none
  session_id : Option String := none
  game_reference : Option String := none
  game_level : Option ℤ := none
  game_mode : Option String := none
  game_color : Option String := none
deriving DecidableEq

/-- A JS number: `some q` finite, `none` non-finite (`NaN`/`±Infinity`). -/
abbrev JSNum := Option ℚ

/-- `values.filter(v => !isNaN(v) && isFinite(v))` — keep the finite values. -/
def jsFilter (values : List JSNum) : List ℚ :=
  values.filterMap id

/-- JS string truthiness for nullable fields: present and non-empty. -/
def truthyStr (o : Option String) : Bool :=
  match o with
  | none => false
  | some s => !(s == "")

/-- Whitespace test used by `String.prototype.trim` (ASCII subset). -/
def isJsSpace (c : Char) : Bool :=
  c == ' ' || c == '\t' || c == '\n' || c == '\r'

/-- `String.prototype.trim` (ASCII whitespace model). -/
def jsTrim (s : String) : String :=
  ⟨(((s.toList.dropWhile isJsSpace).reverse.dropWhile isJsSpace).reverse)⟩

/-- ASCII lower-casing of one character, as `String.prototype.toLowerCase`
acts on the mode strings appearing here. -/
def jsLowerChar (c : Char) : Char :=
  if 'A' ≤ c ∧ c ≤ 'Z' then Char.ofNat (c.toNat + 32) else c

/-- `String.prototype.toLowerCase` (ASCII model). -/
def jsLower (s : String) : String :=
  ⟨s.toList.map jsLowerChar⟩

/-- `pat` occurs as a leading segment of `s`. -/
def startsWithChars : List Char → List Char → Bool
  | _, [] => true
  | [], _ :: _ => false
  | c :: cs, d :: ds => c == d && startsWithChars cs ds

/-- `pat` occurs contiguously somewhere in `s`. -/
def charsContain : List Char → List Char → Bool
  | [], pat => pat.isEmpty
  | c :: cs, pat => startsWithChars (c :: cs) pat || charsContain cs pat

/-- `String.prototype.includes`. -/
def strContains (s pat : String) : Bool :=
  charsContain s.toList pat.toList

/-- `mapGameModeToCategory` from `src/config/index.js`: lower-case and trim
the raw mode; a string containing `"ar"` classifies as `"AR"`, else one
containing `"2d"` classifies as `"2D"`, else no category.  A `null` or
empty (JS-falsy) input yields no category. -/
def mapGameModeToCategory (gameMode : Option String) : Option String :=
  match gameMode with
  | none => none
  | some s =>
    if s == "" then none
    else
      let mode := jsTrim (jsLower s)
      if strContains mode "ar" || mode == "modear" || mode == "ar" then some "AR"
      else if strContains mode "2d" || mode == "mode2d" || mode == "2d" then some "2D"
      else none

/-- The grouping key of an event: its `game_reference` when that string is
truthy and non-blank (`item.game_reference && item.game_reference.trim() !== ''`),
otherwise no key — such events belong to no game. -/
def refKey (e : Event) : Option String :=
  match e.game_reference with
  | none => none
  | some s => if s == "" || jsTrim s == "" then none else some s

/-- `eventsByGame[ref]`: the events grouped under one game reference, in
input (insertion) order. -/
def groupOf (data : List Event) (ref : String) : List Event :=
  data.filter (fun e => refKey e == some ref)

/-- `gameEvents.find(e => e.game_mode)?.game_mode || null` — the raw mode of
the first event carrying a truthy `game_mode`. -/
def rawModeOf (es : List Event) : Option String :=
  match es.find? (fun e => truthyStr e.game_mode) with
  | none => none
  | some e => e.game_mode

/-- The mode category of a game's event list. -/
def categoryOf (es : List Event) : Option String :=
  mapGameModeToCategory (rawModeOf es)

/-- The qualifying "selection shown" event type for a mode category:
`simon_select_end` for AR games, `simon_select` otherwise. -/
def simonTypeFor (cat : Option String) : String :=
  if cat == some "AR" then "simon_select_end" else "simon_select"

/-- `hasSimonSelect`: the game's event group contains the mode-appropriate
qualifying event. -/
def gameIsValid (es : List Event) : Bool :=
  es.any (fun e => e.event_type == simonTypeFor (categoryOf es))

/-- First-occurrence deduplication (insertion order into a JS `Set` or the
key set of a JS object), with an accumulator of already-seen elements. -/
def firstOccurAux {α : Type} [DecidableEq α] : List α → List α → List α
  | [], _ => []
  | x :: rest, seen =>
    if x ∈ seen then firstOccurAux rest seen else x :: firstOccurAux rest (x :: seen)

/-- First-occurrence deduplication of a list. -/
def firstOccur {α : Type} [DecidableEq α] (l : List α) : List α :=
  firstOccurAux l []

/-- `gamesWithSimonSelect`: the references of the valid games of a batch —
every reference that occurs in the batch and whose event group contains the
mode-appropriate qualifying event. -/
def validGameRefs (data : List Event) : List String :=
  (firstOccur (data.filterMap refKey)).filter (fun ref => gameIsValid (groupOf data ref))

/-! ## Response-time extraction -/

/-- A derived response-time sample (`ResponseTimeSample` in the spec):
level, the game's mode category, and the response time in seconds. -/
structure Sample where
  level : ℤ
  mode : Option String
  seconds : ℚ
deriving DecidableEq

/-- The game's events sorted by timestamp
(`[...gameEvents].sort((a, b) => new Date(a.event_at) - new Date(b.event_at))`,
a stable ascending sort). -/
def sortedByTime (es : List Event) : List Event :=
  List.insertionSort (fun a b => a.event_at ≤ b.event_at) es

/-- The level keys the per-level loop processes: the distinct `game_level`
values appearing in the game (the object keys of `eventsByLevel`), skipping
the `'unknown'` (null) bucket and levels `≤ 0`, visited in ascending order —
non-negative integer object keys are enumerated in ascending numeric order
by JS. -/
def levelsToProcess (sorted : List Event) : List ℤ :=
  List.insertionSort (· ≤ ·)
    ((firstOccur (sorted.filterMap (fun e => e.game_level))).filter (fun l => 0 < l))

/-- `eventsByLevel[level]` together with each event's `originalIndex` in the
sorted sequence. -/
def levelBucket (sorted : List Event) (L : ℤ) : List (ℕ × Event) :=
  sorted.enum.filter (fun p => p.2.game_level == some L)

/-- Scan the level bucket from the end for the last qualifying
selection-shown event (`lastSimonEvent` with its `originalIndex`). -/
def lastSimonAt (sorted : List Event) (simonType : String) (L : ℤ) : Option (ℕ × Event) :=
  (levelBucket sorted L).reverse.find? (fun p => p.2.event_type == simonType)

/-- From position `i + 1` onward in the sorted sequence, the first
`level_complete` event stamped `L + 1`, else the first `game_over` event. -/
def endEventAfter (sorted : List Event) (i : ℕ) (L : ℤ) : Option Event :=
  let rest := sorted.drop (i + 1)
  match rest.find? (fun e => e.event_type == "level_complete" && e.game_level == some (L + 1)) with
  | some e => some e
  | none => rest.find? (fun e => e.event_type == "game_over")

/-- The at-most-one response-time sample produced for one level of one game:
last qualifying event, then the first matching end event after it; the
duration is kept only when strictly positive, and converted to seconds. -/
def sampleAtLevel (sorted : List Event) (cat : Option String) (L : ℤ) : Option Sample :=
  match lastSimonAt sorted (simonTypeFor cat) L with
  | none => none
  | some (i, simonE) =>
    match endEventAfter sorted i L with
    | none => none
    | some endE =>
      let duration := endE.event_at - simonE.event_at
      if 0 < duration then some ⟨L, cat, (duration : ℚ) / 1000⟩ else none

/-- All response-time samples of one game: the per-level loop of
`DescriptiveAnalysis.analysisData` / `RegressionAnalysis.processedData`. -/
def samplesForGame (gameEvents : List Event) : List Sample :=
  let sorted := sortedByTime gameEvents
  let cat := categoryOf sorted
  (levelsToProcess sorted).filterMap (fun L => sampleAtLevel sorted cat L)

/-- The full extraction pipeline over a batch: samples of every valid game. -/
def responseTimeSamples (data : List Event) : List Sample :=
  (validGameRefs data).flatMap (fun ref => samplesForGame (groupOf data ref))

/-! ## Statistics library (`DescriptiveAnalysis.jsx`)

Each helper first filters out non-finite values; an empty input (or one with
no finite values) short-circuits to `0` (`null` for the mode). -/

/-- `calculateMean`: arithmetic mean of the finite values, `0` when there are
none (the two early returns of the source collapse to the same zero). -/
def calculateMean (values : List JSNum) : ℚ :=
  let validValues := jsFilter values
  if validValues.isEmpty then 0 else validValues.sum / validValues.length

/-- `calculateMedian`: middle element of the ascending sort of the finite
values, averaging the two middle elements on even length; `0` when there are
no finite values. -/
def calculateMedian (values : List JSNum) : ℚ :=
  let validValues := jsFilter values
  if validValues.isEmpty then 0
  else
    let sorted := List.insertionSort (· ≤ ·) validValues
    let mid := sorted.length / 2
    if sorted.length % 2 == 0 then (sorted.getD (mid - 1) 0 + sorted.getD mid 0) / 2
    else sorted.getD mid 0

/-- A finite JS number whose string representation is an *array-index* object
key (a canonical numeric string for an integer in `[0, 2^32 - 2]`).
`Object.keys` enumerates these keys first, in ascending numeric order; all
other keys follow in insertion order. -/
def isArrayIndexKey (q : ℚ) : Bool :=
  q.den == 1 && decide (0 ≤ q.num) && decide (q.num ≤ 4294967294)

/-- The iteration order of `Object.keys(frequency)` for a frequency object
keyed by the stringified finite values: array-index keys ascending, then the
remaining keys in first-insertion order.  (Distinct finite values stringify
to distinct keys, so keys are identified with the values themselves.) -/
def jsNumberKeys (validValues : List ℚ) : List ℚ :=
  let ks := firstOccur validValues
  List.insertionSort (· ≤ ·) (ks.filter isArrayIndexKey) ++
    ks.filter (fun k => !isArrayIndexKey k)

/-- The `maxFreq`/`mode` accumulation loop of `calculateMode`: a key replaces
the current mode only when its frequency strictly exceeds the maximum so far. -/
def modeLoop (freq : ℚ → ℕ) : List ℚ → ℕ → Option ℚ → ℕ × Option ℚ
  | [], maxFreq, mode => (maxFreq, mode)
  | k :: ks, maxFreq, mode =>
    if freq k > maxFreq then modeLoop freq ks (freq k) (some k)
    else modeLoop freq ks maxFreq mode

/-- `calculateMode`: the first value, in `Object.keys` iteration order of the
frequency object, whose frequency strictly exceeds every earlier maximum;
`null` when there are no finite values. -/
def calculateMode (values : List JSNum) : Option ℚ :=
  let validValues := jsFilter values
  if validValues.isEmpty then none
  else (modeLoop (fun k => validValues.count k) (jsNumberKeys validValues) 0 none).2

/-- Modelled from the spec: "`mode` (first-seen value achieving maximum
frequency)" — the same maximum-frequency scan, but visiting the distinct
values in order of their first occurrence in the input. -/
def specModeFirstSeen (values : List JSNum) : Option ℚ :=
  let validValues := jsFilter values
  if validValues.isEmpty then none
  else (modeLoop (fun k => validValues.count k) (firstOccur validValues) 0 none).2

/-- `calculatePercentile`: ascending sort of the finite values, indexed at
`Math.ceil(p/100 * n) - 1`, clamped below at `0` (the source has no upper
clamp; for `0 < p ≤ 100` the index is already in range); `0` when there are
no finite values. -/
def calculatePercentile (values : List JSNum) (percentile : ℚ) : ℚ :=
  let validValues := jsFilter values
  if validValues.isEmpty then 0
  else
    let sorted := List.insertionSort (· ≤ ·) validValues
    let index : ℤ := ⌈percentile / 100 * sorted.length⌉ - 1
    sorted.getD (max 0 index).toNat 0

/-! ## Session counting

Two divergent variants appear in the source.  `Dashboard.calculateStats`
counts the keys of `gamesBySession`, which only collects events whose
reference is a *valid* game; `DescriptiveAnalysis.analysisData` counts every
session having any event with a non-blank `game_reference`, valid or not. -/

/-- `uniqueSessions` of `Dashboard.calculateStats` (the key set of
`gamesBySession`): sessions having an event that carries both a truthy
`session_id` and a valid game's reference. -/
def dashboardUniqueSessions (data : List Event) : List String :=
  firstOccur (data.filterMap (fun e =>
    if truthyStr e.session_id &&
        (match refKey e with
         | some r => (validGameRefs data).contains r
         | none => false) then
      e.session_id
    else none))

/-- `uniqueSessions` of `DescriptiveAnalysis.analysisData`: sessions having
an event with a truthy `session_id` and a non-blank `game_reference` —
validity of the referenced game is not required. -/
def descriptiveUniqueSessions (data : List Event) : List String :=
  firstOccur (data.filterMap (fun e =>
    if truthyStr e.session_id && (refKey e).isSome then e.session_id else none))

/-! ## Pairwise filtering shared by correlation and regression -/

/-- `validPairs`: index-aligned pairs whose two components are both finite
(the `for` loop shared by `calculatePearsonCorrelation` and
`performSimpleLinearRegression`). -/
def validPairsOf (x y : List JSNum) : List (ℚ × ℚ) :=
  (x.zip y).filterMap (fun p =>
    match p.1, p.2 with
    | some a, some b => some (a, b)
    | _, _ => none)

/-! ## Simple linear regression — closed-form core (`RegressionAnalysis`) -/

/-- Slope numerator `Σ (xᵢ - x̄)(yᵢ - ȳ)`. -/
def regNumerator (vp : List (ℚ × ℚ)) : ℚ :=
  let meanX := calculateMean ((vp.map Prod.fst).map some)
  let meanY := calculateMean ((vp.map Prod.snd).map some)
  vp.foldl (fun acc p => acc + (p.1 - meanX) * (p.2 - meanY)) 0

/-- Slope denominator `Σ (xᵢ - x̄)²`. -/
def regDenominator (vp : List (ℚ × ℚ)) : ℚ :=
  let meanX := calculateMean ((vp.map Prod.fst).map some)
  vp.foldl (fun acc p => acc + (p.1 - meanX) * (p.1 - meanX)) 0

/-- OLS slope `b`. -/
def regSlope (vp : List (ℚ × ℚ)) : ℚ :=
  regNumerator vp / regDenominator vp

/-- OLS intercept `a = ȳ - b·x̄`. -/
def regIntercept (vp : List (ℚ × ℚ)) : ℚ :=
  calculateMean ((vp.map Prod.snd).map some) -
    regSlope vp * calculateMean ((vp.map Prod.fst).map some)

/-- Residual sum of squares `Σ (yᵢ - (a + b·xᵢ))²`. -/
def regSSRes (vp : List (ℚ × ℚ)) : ℚ :=
  vp.foldl (fun acc p =>
    acc + (p.2 - (regIntercept vp + regSlope vp * p.1)) *
      (p.2 - (regIntercept vp + regSlope vp * p.1))) 0

/-- Total sum of squares `Σ (yᵢ - ȳ)²`. -/
def regSSTot (vp : List (ℚ × ℚ)) : ℚ :=
  let meanY := calculateMean ((vp.map Prod.snd).map some)
  vp.foldl (fun acc p => acc + (p.2 - meanY) * (p.2 - meanY)) 0

/-- `rSquared = ssTot === 0 ? 0 : 1 - ssRes/ssTot`. -/
def regRSquared (vp : List (ℚ × ℚ)) : ℚ :=
  if regSSTot vp = 0 then 0 else 1 - regSSRes vp / regSSTot vp

/-- `Math.min(...)` over a non-empty list (the empty case is unreachable in
the source, which guards `n ≥ 2`). -/
def jsMin : List ℚ → ℚ
  | [] => 0
  | h :: t => t.foldl min h

/-- `Math.max(...)` over a non-empty list. -/
def jsMax : List ℚ → ℚ
  | [] => 0
  | h :: t => t.foldl max h

/-! ## Real-valued approximation layer

`erf` is the Abramowitz–Stegun polynomial approximation; the t-, normal and
chi-square CDFs are the source's normal-CDF stand-ins.  These live in `ℝ`
(`Real.sqrt`, `Real.exp`), so the definitions below are noncomputable; every
branch condition a claim depends on is nevertheless decided in `ℚ`. -/

/-- `erf`: Abramowitz–Stegun approximation 7.1.26. -/
noncomputable def erf (x : ℝ) : ℝ :=
  let sign : ℝ := if x < 0 then -1 else 1
  let ax := |x|
  let t := 1 / (1 + 0.3275911 * ax)
  let y := 1 - (((((1.061405429 * t + -1.453152027) * t + 1.421413741) * t +
    -0.284496736) * t + 0.254829592) * t * Real.exp (-(ax * ax)))
  sign * y

/-- `normalCDF` via `erf`. -/
noncomputable def normalCDF (x : ℝ) : ℝ :=
  0.5 * (1 + erf (x / Real.sqrt 2))

/-- `tCDF`: normal-CDF approximation of the t-distribution CDF. -/
noncomputable def tCDF (t df : ℝ) : ℝ :=
  if df ≤ 0 then 0.5 else normalCDF (t / Real.sqrt df)

/-- `chiSquareCDF`: Wilson–Hilferty-style normal approximation; `0` for
non-positive statistics. -/
noncomputable def chiSquareCDF (x df : ℝ) : ℝ :=
  if x ≤ 0 then 0 else normalCDF (Real.sqrt (2 * x) - Real.sqrt (2 * df - 1))

/-- `calculateStandardDeviation`: population standard deviation of the
finite values (square root of the mean squared deviation), `0` when there
are none.  (`CorrelationAnalysis.calculateStdDev` is the same function.) -/
noncomputable def calculateStandardDeviation (values : List JSNum) : ℝ :=
  let validValues := jsFilter values
  if validValues.isEmpty then 0
  else
    let m := calculateMean (validValues.map some)
    let squaredDiffs := validValues.map (fun v => (v - m) * (v - m))
    Real.sqrt ((calculateMean (squaredDiffs.map some) : ℚ) : ℝ)

/-- `calculateVariance = stdDev * stdDev` (with the early return for an
empty input). -/
noncomputable def calculateVariance (values : List JSNum) : ℝ :=
  if values.isEmpty then 0
  else calculateStandardDeviation values * calculateStandardDeviation values

/-- The population variance of an all-finite list, in `ℚ`: the radicand of
`calculateStandardDeviation`.  Used to decide the zero-variance branches. -/
def popVarianceQ (xs : List ℚ) : ℚ :=
  calculateMean (((xs.map (fun v =>
    (v - calculateMean (xs.map some)) * (v - calculateMean (xs.map some)))).map some))

/-! ## Pearson correlation (`CorrelationAnalysis.jsx`) -/

/-- `getCorrelationStrength`: descriptive label for `|r|`. -/
noncomputable def getCorrelationStrength (absCorr : ℝ) : String :=
  if 0.9 ≤ absCorr then "Very Strong"
  else if 0.7 ≤ absCorr then "Strong"
  else if 0.5 ≤ absCorr then "Moderate"
  else if 0.3 ≤ absCorr then "Weak"
  else "Very Weak"

/-- The numeric result record of a successful Pearson correlation. -/
structure PearsonOk where
  correlation : ℝ
  pValue : ℝ
  n : ℕ
  significant : Prop
  strength : String

/-- Outcome of `calculatePearsonCorrelation`: an explicit error record or a
numeric result record — the function never throws. -/
inductive PearsonResult where
  | err (msg : String)
  | ok (r : PearsonOk)

/-- The population covariance of the valid pairs,
`Σ (xᵢ - x̄)(yᵢ - ȳ) / n`. -/
def pearsonCovariance (vp : List (ℚ × ℚ)) : ℚ :=
  let meanX := calculateMean ((vp.map Prod.fst).map some)
  let meanY := calculateMean ((vp.map Prod.snd).map some)
  (vp.foldl (fun acc p => acc + (p.1 - meanX) * (p.2 - meanY)) 0) / vp.length

/-- `correlation = covariance / (stdDevX * stdDevY)`. -/
noncomputable def pearsonCorrelation (vp : List (ℚ × ℚ)) : ℝ :=
  (pearsonCovariance vp : ℝ) /
    (calculateStandardDeviation ((vp.map Prod.fst).map some) *
      calculateStandardDeviation ((vp.map Prod.snd).map some))

/-- `t = r * sqrt((n-2)/(1-r²))`. -/
noncomputable def pearsonT (vp : List (ℚ × ℚ)) : ℝ :=
  pearsonCorrelation vp *
    Real.sqrt (((vp.length : ℝ) - 2) / (1 - pearsonCorrelation vp * pearsonCorrelation vp))

/-- Two-tailed p-value `2 * (1 - tCDF(|t|, n-2))`. -/
noncomputable def pearsonPValue (vp : List (ℚ × ℚ)) : ℝ :=
  2 * (1 - tCDF |pearsonT vp| ((vp.length : ℝ) - 2))

/-- `calculatePearsonCorrelation`: length/pair-count guards, pairwise finite
filtering, zero-variance guard, then covariance over the product of the
standard deviations, with the normal-approximation p-value and the
significance flag at `α = 0.05`. -/
noncomputable def calculatePearsonCorrelation (x y : List JSNum) : PearsonResult :=
  if x.length ≠ y.length ∨ x.length < 2 then
    .err "Insufficient data for Pearson correlation (need at least 2 pairs)"
  else
    let validPairs := validPairsOf x y
    if validPairs.length < 2 then .err "Insufficient valid data for Pearson correlation"
    else
      if calculateStandardDeviation ((validPairs.map Prod.fst).map some) = 0 ∨
          calculateStandardDeviation ((validPairs.map Prod.snd).map some) = 0 then
        .err "Cannot calculate correlation: one or both variables have zero variance"
      else
        .ok ⟨pearsonCorrelation validPairs, pearsonPValue validPairs, validPairs.length,
          pearsonPValue validPairs < 0.05,
          getCorrelationStrength |pearsonCorrelation validPairs|⟩

/-- The degenerate-input condition of the claim, decided in `ℚ`: unequal
lengths, fewer than 2 pairwise-finite pairs, or zero variance (equivalently,
zero standard deviation) in either series after pairwise filtering. -/
def pearsonDegenerate (x y : List JSNum) : Prop :=
  x.length ≠ y.length ∨ x.length < 2 ∨ (validPairsOf x y).length < 2 ∨
    popVarianceQ ((validPairsOf x y).map Prod.fst) = 0 ∨
    popVarianceQ ((validPairsOf x y).map Prod.snd) = 0

instance (x y : List JSNum) : Decidable (pearsonDegenerate x y) := by
  unfold pearsonDegenerate; infer_instance

/-! ## Chi-square test of independence (`DescriptiveAnalysis.performChiSquare`) -/

/-- A contingency table: the JS object `{category: {group: count}}`,
modelled as association lists in key-insertion order (the outcome/mode names
used here are not array-index keys, so insertion order is iteration order).
Missing cells read as `0` (`observed[cat][group] || 0`). -/
abbrev ContingencyTable := List (String × List (String × ℚ))

/-- Cell lookup with the `|| 0` default. -/
def cellOf (t : ContingencyTable) (cat g : String) : ℚ :=
  match t.find? (fun r => r.1 == cat) with
  | none => 0
  | some (_, row) =>
    match row.find? (fun c => c.1 == g) with
    | none => 0
    | some (_, v) => v

/-- `Object.keys(observed)`. -/
def catsOf (t : ContingencyTable) : List String := t.map Prod.fst

/-- `Object.keys(observed[categories[0]])`. -/
def groupsOf (t : ContingencyTable) : List String :=
  match t with
  | [] => []
  | (_, row) :: _ => row.map Prod.fst

/-- A row total. -/
def rowTotal (t : ContingencyTable) (cat : String) : ℚ :=
  (groupsOf t).foldl (fun acc g => acc + cellOf t cat g) 0

/-- A column total. -/
def colTotal (t : ContingencyTable) (g : String) : ℚ :=
  (catsOf t).foldl (fun acc cat => acc + cellOf t cat g) 0

/-- The grand total. -/
def grandTotal (t : ContingencyTable) : ℚ :=
  (catsOf t).foldl (fun acc cat => acc + rowTotal t cat) 0

/-- `Σ (observed - expected)² / expected` over the cells with positive
expected count, `expected = rowTotal * colTotal / grandTotal`. -/
def chiSquareStatistic (t : ContingencyTable) : ℚ :=
  (catsOf t).foldl (fun acc cat =>
    (groupsOf t).foldl (fun acc2 g =>
      let expectedValue := rowTotal t cat * colTotal t g / grandTotal t
      if 0 < expectedValue then
        acc2 + (cellOf t cat g - expectedValue) * (cellOf t cat g - expectedValue) /
          expectedValue
      else acc2) acc) 0

/-- The result record of a successful chi-square test.  (The `expected`,
`observed` and `residuals` tables the source also returns are display-only
recombinations of the same cells.) -/
structure ChiSquareOk where
  chiSquare : ℚ
  degreesOfFreedom : ℕ
  pValue : ℝ
  significant : Prop

/-- Outcome of `performChiSquare`. -/
inductive ChiSquareResult where
  | err (msg : String)
  | ok (r : ChiSquareOk)

/-- `performChiSquare`: shape guards, grand-total guard, then the statistic,
`df = (rows-1)(cols-1)`, and `p = 1 - chiSquareCDF(χ², df)` with the
significance flag at `α = 0.05`. -/
noncomputable def performChiSquare (t : ContingencyTable) : ChiSquareResult :=
  if (catsOf t).length < 2 then .err "Chi-square test requires at least 2 categories"
  else if (groupsOf t).length < 2 then .err "Chi-square test requires at least 2 groups"
  else if grandTotal t = 0 then .err "No data for chi-square test"
  else
    let chiSquare := chiSquareStatistic t
    let df := ((catsOf t).length - 1) * ((groupsOf t).length - 1)
    let pValue := 1 - chiSquareCDF ((chiSquare : ℚ) : ℝ) (df : ℝ)
    .ok ⟨chiSquare, df, pValue, pValue < 0.05⟩

/-! ## Simple linear regression — full result (`performSimpleLinearRegression`) -/

/-- The result record of a successful simple regression.  (The display-only
`equation` string of `toFixed`-formatted coefficients is omitted.) -/
structure SimpleRegOk where
  intercept : ℚ
  slope : ℚ
  rSquared : ℚ
  n : ℕ
  seSlope : ℝ
  seIntercept : ℝ
  tSlope : ℝ
  tIntercept : ℝ
  pValueSlope : ℝ
  pValueIntercept : ℝ
  significant : Prop
  predictedLine : List (ℚ × ℚ)

/-- Outcome of `performSimpleLinearRegression`. -/
inductive SimpleRegResult where
  | err (msg : String)
  | ok (r : SimpleRegOk)

/-- Mean squared error `ssRes / (n - 2)`. -/
def regMSE (vp : List (ℚ × ℚ)) : ℚ :=
  regSSRes vp / ((vp.length : ℚ) - 2)

/-- Standard error of the slope, `sqrt(mse / Σ (xᵢ - x̄)²)`. -/
noncomputable def regSESlope (vp : List (ℚ × ℚ)) : ℝ :=
  Real.sqrt ((regMSE vp : ℝ) / (regDenominator vp : ℝ))

/-- Standard error of the intercept, `sqrt(mse * (1/n + x̄²/Σ (xᵢ - x̄)²))`. -/
noncomputable def regSEIntercept (vp : List (ℚ × ℚ)) : ℝ :=
  Real.sqrt ((regMSE vp : ℝ) * (1 / (vp.length : ℝ) +
    (calculateMean ((vp.map Prod.fst).map some) : ℝ) *
      (calculateMean ((vp.map Prod.fst).map some) : ℝ) / (regDenominator vp : ℝ)))

/-- t-statistic of the slope (`0` when its standard error is `0`). -/
noncomputable def regTSlope (vp : List (ℚ × ℚ)) : ℝ :=
  if regSESlope vp = 0 then 0 else (regSlope vp : ℝ) / regSESlope vp

/-- t-statistic of the intercept (`0` when its standard error is `0`). -/
noncomputable def regTIntercept (vp : List (ℚ × ℚ)) : ℝ :=
  if regSEIntercept vp = 0 then 0 else (regIntercept vp : ℝ) / regSEIntercept vp

/-- Two-tailed p-value of the slope. -/
noncomputable def regPValueSlope (vp : List (ℚ × ℚ)) : ℝ :=
  2 * (1 - tCDF |regTSlope vp| ((vp.length : ℝ) - 2))

/-- Two-tailed p-value of the intercept. -/
noncomputable def regPValueIntercept (vp : List (ℚ × ℚ)) : ℝ :=
  2 * (1 - tCDF |regTIntercept vp| ((vp.length : ℝ) - 2))

/-- The two endpoints of the fitted line over `[min x, max x]`. -/
def regPredictedLine (vp : List (ℚ × ℚ)) : List (ℚ × ℚ) :=
  let xs := vp.map Prod.fst
  [(jsMin xs, regIntercept vp + regSlope vp * jsMin xs),
   (jsMax xs, regIntercept vp + regSlope vp * jsMax xs)]

/-- `performSimpleLinearRegression`: guards, then the closed-form OLS core
(`regSlope`/`regIntercept`/`regRSquared`), standard errors from the mean
squared error, t-statistics and normal-approximation p-values. -/
noncomputable def performSimpleLinearRegression (x y : List JSNum) : SimpleRegResult :=
  if x.length ≠ y.length ∨ x.length < 2 then
    .err "Insufficient data for regression (need at least 2 pairs)"
  else
    let vp := validPairsOf x y
    if vp.length < 2 then .err "Insufficient valid data for regression"
    else if regDenominator vp = 0 then
      .err "Cannot calculate regression: X variable has zero variance"
    else
      .ok ⟨regIntercept vp, regSlope vp, regRSquared vp, vp.length, regSESlope vp,
        regSEIntercept vp, regTSlope vp, regTIntercept vp, regPValueSlope vp,
        regPValueIntercept vp, regPValueSlope vp < 0.05, regPredictedLine vp⟩

/-! ## Concrete inputs used by the claims -/

/-- Scenario event: `simon_select` at `t = 0` on level 1 of 2D game `G1`. -/
def ev1 : Event :=
  { event_at := 0, event_type := "simon_select", player_id := some "P1",
    session_id := some "S1", game_reference := some "G1",
    game_level := some 1, game_mode := some "2D" }

/-- Scenario event: `level_complete` at `t = 5s` stamped with level 2. -/
def ev2 : Event :=
  { event_at := 5000, event_type := "level_complete", player_id := some "P1",
    session_id := some "S1", game_reference := some "G1",
    game_level := some 2, game_mode := some "2D" }

/-- An event carrying a session id and a game reference for a game that has
no qualifying selection-shown event (an invalid game). -/
def evNoSimon : Event :=
  { event_at := 0, event_type := "game_start", player_id := some "P1",
    session_id := some "S1", game_reference := some "G1",
    game_level := some 1, game_mode := some "2D" }

/-- The 2×2 contingency table with identical row/column proportions. -/
def chiTable : ContingencyTable :=
  [("A", [("g1", 10), ("g2", 10)]), ("B", [("g1", 10), ("g2", 10)])]

/-- Regression input `x = [1, 2, 3, 4]`. -/
def regX4 : List JSNum := [some 1, some 2, some 3, some 4]

/-- Regression input `y = [2, 4, 6, 8]`. -/
def regY4 : List JSNum := [some 2, some 4, some 6, some 8]

/-! ## General lemmas -/

theorem mem_firstOccurAux {α : Type} [DecidableEq α] (l seen : List α) (x : α) :
    x ∈ firstOccurAux l seen ↔ x ∈ l ∧ x ∉ seen := by
  induction l generalizing seen with
  | nil => simp [firstOccurAux]
  | cons a l ih =>
    by_cases ha : a ∈ seen
    · simp only [firstOccurAux, if_pos ha, ih, List.mem_cons]
      constructor
      · rintro ⟨hx, hn⟩; exact ⟨Or.inr hx, hn⟩
      · rintro ⟨hx | hx, hn⟩
        · exact absurd (hx ▸ ha) hn
        · exact ⟨hx, hn⟩
    · simp only [firstOccurAux, if_neg ha, List.mem_cons, ih]
      constructor
      · rintro (rfl | ⟨hx, hn⟩)
        · exact ⟨Or.inl rfl, ha⟩
        · simp only [List.mem_cons, not_or] at hn
          exact ⟨Or.inr hx, hn.2⟩
      · rintro ⟨rfl | hx, hn⟩
        · exact Or.inl rfl
        · by_cases hxa : x = a
          · exact Or.inl hxa
          · exact Or.inr ⟨hx, by simp [hn, hxa]⟩

theorem mem_firstOccur {α : Type} [DecidableEq α] (l : List α) (x : α) :
    x ∈ firstOccur l ↔ x ∈ l := by
  simp [firstOccur, mem_firstOccurAux]

theorem nodup_firstOccurAux {α : Type} [DecidableEq α] (l seen : List α) :
    (firstOccurAux l seen).Nodup := by
  induction l generalizing seen with
  | nil => simp [firstOccurAux]
  | cons a l ih =>
    by_cases ha : a ∈ seen
    · simpa [firstOccurAux, if_pos ha] using ih seen
    · simp only [firstOccurAux, if_neg ha]
      refine List.nodup_cons.mpr ⟨?_, ih (a :: seen)⟩
      intro hmem
      rw [mem_firstOccurAux] at hmem
      exact hmem.2 (List.mem_cons_self a seen)

theorem nodup_firstOccur {α : Type} [DecidableEq α] (l : List α) :
    (firstOccur l).Nodup :=
  nodup_firstOccurAux l []

theorem jsFilter_map_some (xs : List ℚ) : jsFilter (xs.map some) = xs := by
  simp [jsFilter]

theorem mem_of_mem_enum {α : Type} {l : List α} {i : ℕ} {e : α}
    (h : (i, e) ∈ l.enum) : e ∈ l := by
  rw [List.enum_eq_zip_range] at h
  exact (List.of_mem_zip h).2

/-- A sample produced for level `L` carries level `L`. -/
theorem sampleAtLevel_level {sorted : List Event} {cat : Option String} {L : ℤ} {s : Sample}
    (h : sampleAtLevel sorted cat L = some s) : s.level = L := by
  unfold sampleAtLevel at h
  cases hq : lastSimonAt sorted (simonTypeFor cat) L with
  | none => rw [hq] at h; simp at h
  | some p =>
    obtain ⟨i, q⟩ := p
    rw [hq] at h
    dsimp only at h
    cases he : endEventAfter sorted i L with
    | none => rw [he] at h; simp at h
    | some en =>
      rw [he] at h
      dsimp only at h
      by_cases hd : 0 < en.event_at - q.event_at
      · rw [if_pos hd] at h
        cases h
        rfl
      · rw [if_neg hd] at h
        cases h

/-- A produced sample has strictly positive seconds. -/
theorem sampleAtLevel_seconds_pos {sorted : List Event} {cat : Option String} {L : ℤ}
    {s : Sample} (h : sampleAtLevel sorted cat L = some s) : 0 < s.seconds := by
  unfold sampleAtLevel at h
  cases hq : lastSimonAt sorted (simonTypeFor cat) L with
  | none => rw [hq] at h; simp at h
  | some p =>
    obtain ⟨i, q⟩ := p
    rw [hq] at h
    dsimp only at h
    cases he : endEventAfter sorted i L with
    | none => rw [he] at h; simp at h
    | some en =>
      rw [he] at h
      dsimp only at h
      by_cases hd : 0 < en.event_at - q.event_at
      · rw [if_pos hd] at h
        cases h
        show 0 < ((en.event_at - q.event_at : ℤ) : ℚ) / 1000
        apply div_pos _ (by norm_num)
        exact_mod_cast hd
      · rw [if_neg hd] at h
        cases h

/-- A `filterMap` over distinct keys, whose values remember their key,
contributes at most one element per key. -/
theorem filterMap_keyed_filter_length {α β : Type} [DecidableEq α] [DecidableEq β]
    (f : α → Option β) (key : β → α)
    (hkey : ∀ a b, f a = some b → key b = a) :
    ∀ (ks : List α), ks.Nodup → ∀ (L : α),
      ((ks.filterMap f).filter (fun b => key b == L)).length ≤ 1 := by
  intro ks
  induction ks with
  | nil => intro _ L; simp
  | cons k ks ih =>
    intro hnd L
    have hnd' := List.nodup_cons.mp hnd
    cases hf : f k with
    | none =>
      rw [List.filterMap_cons_none hf]
      exact ih hnd'.2 L
    | some s =>
      rw [List.filterMap_cons_some hf]
      by_cases hkl : key s == L
      · rw [List.filter_cons, if_pos hkl]
        have hrest : (ks.filterMap f).filter (fun b => key b == L) = [] := by
          rw [List.filter_eq_nil_iff]
          intro t ht
          rw [List.mem_filterMap] at ht
          obtain ⟨k2, hk2, hft⟩ := ht
          have h1 : key t = k2 := hkey k2 t hft
          have h2 : key s = k := hkey k s hf
          simp only [beq_iff_eq] at hkl ⊢
          intro hEq
          apply hnd'.1
          rw [← h1, hEq, ← hkl, h2] at hk2
          exact hk2
        rw [hrest]
        simp
      · rw [List.filter_cons, if_neg hkl]
        exact ih hnd'.2 L

/-- The per-game level loop visits each level key once. -/
theorem nodup_levelsToProcess (sorted : List Event) : (levelsToProcess sorted).Nodup := by
  unfold levelsToProcess
  have h1 : ((firstOccur (sorted.filterMap (fun e => e.game_level))).filter
      (fun l => 0 < l)).Nodup :=
    (nodup_firstOccur _).filter _
  exact ((List.perm_insertionSort _ _).nodup_iff).mpr h1

/-- The qualifying and end events behind a produced sample: membership, the
event types the scan matches, and the seconds as their timestamp difference. -/
theorem sampleAtLevel_sound (sorted : List Event) (cat : Option String) (L : ℤ) (s : Sample)
    (h : sampleAtLevel sorted cat L = some s) :
    ∃ q en, q ∈ sorted ∧ en ∈ sorted ∧
      q.event_type = simonTypeFor cat ∧ q.game_level = some L ∧
      ((en.event_type = "level_complete" ∧ en.game_level = some (L + 1)) ∨
        en.event_type = "game_over") ∧
      q.event_at < en.event_at ∧
      s = ⟨L, cat, ((en.event_at - q.event_at : ℤ) : ℚ) / 1000⟩ := by
  unfold sampleAtLevel at h
  cases hq : lastSimonAt sorted (simonTypeFor cat) L with
  | none => rw [hq] at h; simp at h
  | some p =>
    obtain ⟨i, q⟩ := p
    rw [hq] at h
    dsimp only at h
    have hq' : (levelBucket sorted L).reverse.find?
        (fun p => p.2.event_type == simonTypeFor cat) = some (i, q) := hq
    have hqmem : (i, q) ∈ (levelBucket sorted L).reverse := List.mem_of_find?_eq_some hq'
    have hqpred : (q.event_type == simonTypeFor cat) = true := by
      simpa using List.find?_some hq'
    rw [List.mem_reverse] at hqmem
    unfold levelBucket at hqmem
    rw [List.mem_filter] at hqmem
    have hqin : q ∈ sorted := mem_of_mem_enum hqmem.1
    have hqlvl : q.game_level = some L := by
      have := hqmem.2
      simpa using this
    cases he : endEventAfter sorted i L with
    | none => rw [he] at h; simp at h
    | some en =>
      rw [he] at h
      dsimp only at h
      by_cases hd : 0 < en.event_at - q.event_at
      · rw [if_pos hd] at h
        have hs : s = ⟨L, cat, ((en.event_at - q.event_at : ℤ) : ℚ) / 1000⟩ := by
          cases h; rfl
        have hen : en ∈ sorted ∧
            ((en.event_type = "level_complete" ∧ en.game_level = some (L + 1)) ∨
              en.event_type = "game_over") := by
          unfold endEventAfter at he
          dsimp only at he
          cases hlc : (sorted.drop (i + 1)).find?
              (fun e => e.event_type == "level_complete" && e.game_level == some (L + 1)) with
          | some e0 =>
            rw [hlc] at he
            dsimp only at he
            cases he
            have hmem := List.mem_of_find?_eq_some hlc
            have hpred := List.find?_some hlc
            refine ⟨List.drop_subset _ _ hmem, Or.inl ?_⟩
            simpa using hpred
          | none =>
            rw [hlc] at he
            dsimp only at he
            have hmem := List.mem_of_find?_eq_some he
            have hpred := List.find?_some he
            refine ⟨List.drop_subset _ _ hmem, Or.inr ?_⟩
            simpa using hpred
        refine ⟨q, en, hqin, hen.1, by simpa using hqpred, hqlvl, hen.2, by omega, hs⟩
      · rw [if_neg hd] at h
        cases h

/-- The `maxFreq`/`mode` loop either never improves on its initial state or
lands on some visited key with its frequency. -/
theorem modeLoop_cases (freq : ℚ → ℕ) :
    ∀ (ks : List ℚ) (f0 : ℕ) (m0 : Option ℚ),
      modeLoop freq ks f0 m0 = (f0, m0) ∨
        ∃ v ∈ ks, modeLoop freq ks f0 m0 = (freq v, some v) := by
  intro ks
  induction ks with
  | nil => intro f0 m0; exact Or.inl rfl
  | cons k ks ih =>
    intro f0 m0
    by_cases hk : freq k > f0
    · rw [modeLoop, if_pos hk]
      rcases ih (freq k) (some k) with heq | ⟨v, hv, heq⟩
      · exact Or.inr ⟨k, List.mem_cons_self k ks, heq⟩
      · exact Or.inr ⟨v, List.mem_cons_of_mem k hv, heq⟩
    · rw [modeLoop, if_neg hk]
      rcases ih f0 m0 with heq | ⟨v, hv, heq⟩
      · exact Or.inl heq
      · exact Or.inr ⟨v, List.mem_cons_of_mem k hv, heq⟩

/-- The final maximum of the `maxFreq` loop dominates the initial value and
the frequency of every visited key. -/
theorem modeLoop_fst_ge (freq : ℚ → ℕ) :
    ∀ (ks : List ℚ) (f0 : ℕ) (m0 : Option ℚ),
      f0 ≤ (modeLoop freq ks f0 m0).1 ∧
        ∀ u ∈ ks, freq u ≤ (modeLoop freq ks f0 m0).1 := by
  intro ks
  induction ks with
  | nil => intro f0 m0; exact ⟨le_refl _, by simp⟩
  | cons k ks ih =>
    intro f0 m0
    by_cases hk : freq k > f0
    · rw [modeLoop, if_pos hk]
      obtain ⟨h1, h2⟩ := ih (freq k) (some k)
      refine ⟨le_trans (le_of_lt hk) h1, ?_⟩
      intro u hu
      rcases List.mem_cons.mp hu with rfl | hu'
      · exact h1
      · exact h2 u hu'
    · rw [modeLoop, if_neg hk]
      obtain ⟨h1, h2⟩ := ih f0 m0
      refine ⟨h1, ?_⟩
      intro u hu
      rcases List.mem_cons.mp hu with rfl | hu'
      · exact le_trans (Nat.le_of_not_lt hk) h1
      · exact h2 u hu'

/-- The JS key iteration order enumerates exactly the values of the list. -/
theorem mem_jsNumberKeys (l : List ℚ) (u : ℚ) : u ∈ jsNumberKeys l ↔ u ∈ l := by
  unfold jsNumberKeys
  rw [List.mem_append, (List.perm_insertionSort _ _).mem_iff]
  constructor
  · rintro (hm | hm)
    · exact (mem_firstOccur _ _).mp (List.mem_of_mem_filter hm)
    · exact (mem_firstOccur _ _).mp (List.mem_of_mem_filter hm)
  · intro hm
    have hfo : u ∈ firstOccur l := (mem_firstOccur _ _).mpr hm
    by_cases hp : isArrayIndexKey u
    · exact Or.inl (List.mem_filter.mpr ⟨hfo, hp⟩)
    · exact Or.inr (List.mem_filter.mpr ⟨hfo, by simp [hp]⟩)

/-- Characterization of one entry of the session-count `filterMap`s. -/
theorem sessionEntry_eq_some (c : Event → Bool) (e : Event) (sid : String) :
    ((if truthyStr e.session_id && c e then e.session_id else none) = some sid) ↔
      (e.session_id = some sid ∧ sid ≠ "" ∧ c e = true) := by
  by_cases hc : (truthyStr e.session_id && c e) = true
  · rw [if_pos hc]
    obtain ⟨ht, hcE⟩ : truthyStr e.session_id = true ∧ c e = true := by simpa using hc
    constructor
    · intro hs
      refine ⟨hs, ?_, hcE⟩
      rw [hs] at ht
      simpa [truthyStr] using ht
    · rintro ⟨hs, _, _⟩
      exact hs
  · rw [if_neg hc]
    constructor
    · intro hnone
      exact absurd hnone (by simp)
    · rintro ⟨hs, hne, hcE⟩
      refine absurd ?_ hc
      have ht : truthyStr e.session_id = true := by rw [hs]; simpa [truthyStr] using hne
      simp [ht, hcE]

theorem calculateMean_map_some_nonneg (xs : List ℚ) (h : ∀ v ∈ xs, 0 ≤ v) :
    0 ≤ calculateMean (xs.map some) := by
  unfold calculateMean
  rw [jsFilter_map_some]
  by_cases he : xs.isEmpty = true
  · rw [if_pos he]
  · rw [if_neg he]
    exact div_nonneg (List.sum_nonneg h) (Nat.cast_nonneg _)

theorem popVarianceQ_nonneg (xs : List ℚ) : 0 ≤ popVarianceQ xs := by
  unfold popVarianceQ
  apply calculateMean_map_some_nonneg
  intro v hv
  rw [List.mem_map] at hv
  obtain ⟨w, _, rfl⟩ := hv
  exact mul_self_nonneg _

/-- For a non-empty all-finite list, the standard deviation vanishes exactly
when the (rational) population variance does. -/
theorem stdDev_map_some_eq_zero_iff (xs : List ℚ) (h : ¬ xs.isEmpty = true) :
    calculateStandardDeviation (xs.map some) = 0 ↔ popVarianceQ xs = 0 := by
  unfold calculateStandardDeviation
  rw [jsFilter_map_some, if_neg h]
  show Real.sqrt ((popVarianceQ xs : ℚ) : ℝ) = 0 ↔ popVarianceQ xs = 0
  rw [Real.sqrt_eq_zero']
  constructor
  · intro hle
    have hge : (0 : ℝ) ≤ (popVarianceQ xs : ℝ) := by
      exact_mod_cast popVarianceQ_nonneg xs
    have : ((popVarianceQ xs : ℚ) : ℝ) = 0 := le_antisymm hle hge
    exact_mod_cast this
  · intro hz
    rw [hz]
    norm_num

/-! ## Claim theorems -/

/-- C1: for every group of events sharing a non-empty `game_reference`, the
game is classified valid iff the mode-appropriate qualifying event is
present: when the game's mode (taken from the first event carrying a
`game_mode`) classifies as AR, the group must contain a `simon_select_end`
event; otherwise the group must contain a `simon_select` event. -/
theorem game_validity_iff (data : List Event) (ref : String) :
    ref ∈ validGameRefs data ↔
      ((∃ e ∈ data, refKey e = some ref) ∧
        ((categoryOf (groupOf data ref) = some "AR" ∧
            ∃ e ∈ groupOf data ref, e.event_type = "simon_select_end") ∨
          (categoryOf (groupOf data ref) ≠ some "AR" ∧
            ∃ e ∈ groupOf data ref, e.event_type = "simon_select"))) := by
  unfold validGameRefs gameIsValid simonTypeFor
  rw [List.mem_filter]
  simp only [mem_firstOccur, List.mem_filterMap, List.any_eq_true, beq_iff_eq]
  by_cases hcat : categoryOf (groupOf data ref) = some "AR"
  · simp [hcat]
  · simp [hcat]

/-- Witness for C1: on the two-event 2D scenario batch, game `G1` is valid,
and the characterization unfolds it into its qualifying `simon_select`. -/
theorem game_validity_iff_witness :
    (∃ e ∈ [ev1, ev2], refKey e = some "G1") ∧
      ((categoryOf (groupOf [ev1, ev2] "G1") = some "AR" ∧
          ∃ e ∈ groupOf [ev1, ev2] "G1", e.event_type = "simon_select_end") ∨
        (categoryOf (groupOf [ev1, ev2] "G1") ≠ some "AR" ∧
          ∃ e ∈ groupOf [ev1, ev2] "G1", e.event_type = "simon_select")) :=
  (game_validity_iff [ev1, ev2] "G1").mp (by decide)

/-- C2: response-time extraction on the concrete 2D scenario — a
`simon_select` at `t = 0` on level 1 followed by a `level_complete` at
`t = 5s` stamped level 2 — yields exactly the one sample
`{level 1, mode 2D, 5 seconds}`; and in general a produced sample's seconds
are the timestamp difference between a qualifying selection-shown event of
level `L` and a forward-scanned end event (`level_complete` stamped `L + 1`,
or `game_over`). -/
theorem response_time_extraction :
    responseTimeSamples [ev1, ev2] = [⟨1, some "2D", 5⟩] ∧
      ∀ (sorted : List Event) (cat : Option String) (L : ℤ) (s : Sample),
        sampleAtLevel sorted cat L = some s →
          ∃ q en, q ∈ sorted ∧ en ∈ sorted ∧
            q.event_type = simonTypeFor cat ∧ q.game_level = some L ∧
            ((en.event_type = "level_complete" ∧ en.game_level = some (L + 1)) ∨
              en.event_type = "game_over") ∧
            q.event_at < en.event_at ∧
            s = ⟨L, cat, ((en.event_at - q.event_at : ℤ) : ℚ) / 1000⟩ := by
  constructor
  · have h : responseTimeSamples [ev1, ev2] =
        [⟨1, some "2D", ((5000 - 0 : ℤ) : ℚ) / 1000⟩] := rfl
    rw [h]
    norm_num
  · exact sampleAtLevel_sound

/-- Witness for C2: the general clause applied to the scenario's level-1
sample, whose extraction equation holds by computation. -/
theorem response_time_extraction_witness :
    ∃ q en, q ∈ sortedByTime [ev1, ev2] ∧ en ∈ sortedByTime [ev1, ev2] ∧
      q.event_type = simonTypeFor (some "2D") ∧ q.game_level = some 1 ∧
      ((en.event_type = "level_complete" ∧ en.game_level = some (1 + 1)) ∨
        en.event_type = "game_over") ∧
      q.event_at < en.event_at ∧
      (⟨1, some "2D", ((5000 - 0 : ℤ) : ℚ) / 1000⟩ : Sample) =
        ⟨1, some "2D", ((en.event_at - q.event_at : ℤ) : ℚ) / 1000⟩ :=
  response_time_extraction.2 (sortedByTime [ev1, ev2]) (some "2D") 1
    ⟨1, some "2D", ((5000 - 0 : ℤ) : ℚ) / 1000⟩ rfl

/-- C3: for every game and level, at most one response-time sample is
produced, and every produced sample has strictly positive seconds. -/
theorem sample_uniqueness_and_positivity (gameEvents : List Event) (L : ℤ) :
    ((samplesForGame gameEvents).filter (fun s => s.level == L)).length ≤ 1 ∧
      ∀ s ∈ samplesForGame gameEvents, 0 < s.seconds := by
  constructor
  · exact filterMap_keyed_filter_length _ Sample.level
      (fun a b h => sampleAtLevel_level h) _ (nodup_levelsToProcess _) L
  · intro s hs
    rw [samplesForGame, List.mem_filterMap] at hs
    obtain ⟨k, _, hk⟩ := hs
    exact sampleAtLevel_seconds_pos hk

/-- Witness for C3: the scenario game has at most one level-1 sample, and
its produced sample has positive seconds. -/
theorem sample_uniqueness_and_positivity_witness :
    ((samplesForGame [ev1, ev2]).filter (fun s => s.level == 1)).length ≤ 1 ∧
      0 < (Sample.mk 1 (some "2D") (((5000 - 0 : ℤ) : ℚ) / 1000)).seconds := by
  refine ⟨(sample_uniqueness_and_positivity [ev1, ev2] 1).1,
    (sample_uniqueness_and_positivity [ev1, ev2] 1).2 _ ?_⟩
  rw [show samplesForGame [ev1, ev2] =
    [⟨1, some "2D", ((5000 - 0 : ℤ) : ℚ) / 1000⟩] from rfl]
  exact List.mem_singleton.mpr rfl

/-- C4 counterexample: on the even-length sequence `[1, 2]` the 50th
percentile returns the lower middle value `1` while the median averages to
`3/2`, so `percentile(xs, 50) = median(xs)` fails. -/
theorem percentile_median_counterexample :
    calculatePercentile [some 1, some 2] 50 = 1 ∧
      calculateMedian [some 1, some 2] = 3/2 ∧
      calculatePercentile [some 1, some 2] 50 ≠ calculateMedian [some 1, some 2] := by
  have h : jsFilter [some 1, some 2] = [1, 2] := by decide
  have h2 : List.insertionSort (· ≤ ·) [(1 : ℚ), 2] = [1, 2] := by decide
  have hp : calculatePercentile [some 1, some 2] 50 = 1 := by
    rw [calculatePercentile, h]
    norm_num [h2]
  have hm : calculateMedian [some 1, some 2] = 3/2 := by
    rw [calculateMedian, h]
    norm_num [h2]
  refine ⟨hp, hm, ?_⟩
  rw [hp, hm]
  norm_num

/-- C4 (amended): `percentile(xs, 50) = median(xs)` for every sequence with
an odd number of finite values (on even counts the percentile returns the
lower middle element instead of the average of the two middle elements). -/
theorem percentile_median_odd (xs : List JSNum)
    (h : (jsFilter xs).length % 2 = 1) :
    calculatePercentile xs 50 = calculateMedian xs := by
  simp only [calculatePercentile, calculateMedian]
  have hne : ¬ ((jsFilter xs).isEmpty = true) := by
    rw [List.isEmpty_iff]
    intro hc
    rw [hc] at h
    simp at h
  rw [if_neg hne, if_neg hne]
  have hlen : (List.insertionSort (· ≤ ·) (jsFilter xs)).length = (jsFilter xs).length :=
    (List.perm_insertionSort _ _).length_eq
  set n := (jsFilter xs).length with hn
  have hmid : ¬ (((List.insertionSort (· ≤ ·) (jsFilter xs)).length % 2 == 0) = true) := by
    rw [hlen]
    simp [h]
  rw [if_neg hmid]
  obtain ⟨k, hk⟩ : ∃ k, n = 2 * k + 1 := ⟨n / 2, by omega⟩
  have hk2 : n / 2 = k := by omega
  have hceil : (⌈(50 : ℚ) / 100 * (List.insertionSort (· ≤ ·) (jsFilter xs)).length⌉ - 1 : ℤ)
      = ((n / 2 : ℕ) : ℤ) := by
    rw [hlen]
    have h50 : (50 : ℚ) / 100 * (n : ℚ) = (k : ℚ) + 1/2 := by
      rw [hk]; push_cast; ring
    have hc : ⌈((k : ℚ) + 1/2)⌉ = (k : ℤ) + 1 := by
      rw [Int.ceil_eq_iff]
      constructor
      · push_cast; linarith
      · push_cast; linarith
    rw [h50, hc, hk2]
    ring
  rw [hceil]
  have hmax : (max 0 ((n / 2 : ℕ) : ℤ)).toNat = n / 2 := by
    omega
  rw [hmax, hlen]

/-- Witness for C4: the odd-length input `[1, 2, 3]` satisfies the parity
hypothesis and the percentile/median agreement. -/
theorem percentile_median_odd_witness :
    (jsFilter [some (1 : ℚ), some 2, some 3]).length % 2 = 1 ∧
      calculatePercentile [some (1 : ℚ), some 2, some 3] 50 =
        calculateMedian [some (1 : ℚ), some 2, some 3] :=
  ⟨by decide, percentile_median_odd [some 1, some 2, some 3] (by decide)⟩

/-- C5 counterexample: on `[5, 3, 3, 5]` both values tie at frequency 2, the
first-seen value is `5`, but `calculateMode` returns `3` — the frequency
object's integer keys are iterated in ascending numeric order, not insertion
order. -/
theorem mode_first_seen_counterexample :
    calculateMode [some 5, some 3, some 3, some 5] = some 3 ∧
      specModeFirstSeen [some 5, some 3, some 3, some 5] = some 5 ∧
      calculateMode [some 5, some 3, some 3, some 5] ≠
        specModeFirstSeen [some 5, some 3, some 3, some 5] := by
  refine ⟨by decide, by decide, ?_⟩
  intro hEq
  have h1 : calculateMode [some 5, some 3, some 3, some 5] = some 3 := by decide
  have h2 : specModeFirstSeen [some 5, some 3, some 3, some 5] = some 5 := by decide
  rw [h1, h2] at hEq
  exact absurd hEq (by decide)

/-- C5 (amended): `calculateMode` returns a value of the sequence achieving
the maximum frequency among the finite values; ties are broken by the JS
object-key iteration order of the frequency object (ascending numeric order
for non-negative integer values), not by first occurrence. -/
theorem mode_max_frequency (xs : List JSNum) (v : ℚ)
    (h : calculateMode xs = some v) :
    v ∈ jsFilter xs ∧
      ∀ u ∈ jsFilter xs, (jsFilter xs).count u ≤ (jsFilter xs).count v := by
  unfold calculateMode at h
  by_cases he : (jsFilter xs).isEmpty = true
  · rw [if_pos he] at h; cases h
  · rw [if_neg he] at h
    rcases modeLoop_cases (fun k => (jsFilter xs).count k) (jsNumberKeys (jsFilter xs)) 0 none
      with heq | ⟨w, hw, heq⟩
    · rw [heq] at h; cases h
    · rw [heq] at h
      cases h
      constructor
      · exact (mem_jsNumberKeys _ _).mp hw
      · intro u hu
        have hu' : u ∈ jsNumberKeys (jsFilter xs) := (mem_jsNumberKeys _ _).mpr hu
        have hb := (modeLoop_fst_ge (fun k => (jsFilter xs).count k)
          (jsNumberKeys (jsFilter xs)) 0 none).2 u hu'
        rw [heq] at hb
        exact hb

/-- Witness for C5: `3` is the returned mode of `[5, 3, 3, 5]` and is a
maximizer of the frequency. -/
theorem mode_max_frequency_witness :
    (3 : ℚ) ∈ jsFilter [some 5, some 3, some 3, some 5] ∧
      ∀ u ∈ jsFilter [some 5, some 3, some 3, some 5],
        (jsFilter [some 5, some 3, some 3, some 5]).count u ≤
          (jsFilter [some 5, some 3, some 3, some 5]).count 3 :=
  mode_max_frequency [some 5, some 3, some 3, some 5] 3 (by decide)

/-- C6 counterexample: a batch with a single event whose game has no
qualifying selection-shown event.  The `DescriptiveAnalysis` total-sessions
count includes session `S1` even though no valid game exists, while the
`Dashboard` count does not — so "the total-sessions count includes exactly
the sessions whose set of valid games is non-empty" fails for the
`DescriptiveAnalysis` variant cited by the claim. -/
theorem session_count_counterexample :
    descriptiveUniqueSessions [evNoSimon] = ["S1"] ∧
      validGameRefs [evNoSimon] = [] ∧
      dashboardUniqueSessions [evNoSimon] = [] := by
  decide

/-- C6 (amended): the `Dashboard` total-sessions count includes exactly the
sessions having an event that carries a valid game's reference, i.e. whose
valid-game set is non-empty; the `DescriptiveAnalysis` variant instead
counts every session having an event with a non-blank `game_reference`,
whether or not any of its games is valid. -/
theorem session_counts_characterization (data : List Event) (sid : String) :
    (sid ∈ dashboardUniqueSessions data ↔
      ∃ e ∈ data, e.session_id = some sid ∧ sid ≠ "" ∧
        ∃ r, refKey e = some r ∧ r ∈ validGameRefs data) ∧
    (sid ∈ descriptiveUniqueSessions data ↔
      ∃ e ∈ data, e.session_id = some sid ∧ sid ≠ "" ∧ (refKey e).isSome = true) := by
  constructor
  · unfold dashboardUniqueSessions
    rw [mem_firstOccur, List.mem_filterMap]
    constructor
    · rintro ⟨e, he, hentry⟩
      obtain ⟨hs, hne, hcE⟩ := (sessionEntry_eq_some (fun e => match refKey e with
        | some r => (validGameRefs data).contains r
        | none => false) e sid).mp hentry
      refine ⟨e, he, hs, hne, ?_⟩
      cases hr : refKey e with
      | none => rw [hr] at hcE; cases hcE
      | some r =>
        rw [hr] at hcE
        exact ⟨r, rfl, by simpa [List.contains, List.elem_iff] using hcE⟩
    · rintro ⟨e, he, hs, hne, r, hr, hmem⟩
      refine ⟨e, he, (sessionEntry_eq_some (fun e => match refKey e with
        | some r => (validGameRefs data).contains r
        | none => false) e sid).mpr ⟨hs, hne, ?_⟩⟩
      rw [hr]
      simpa [List.contains, List.elem_iff] using hmem
  · unfold descriptiveUniqueSessions
    rw [mem_firstOccur, List.mem_filterMap]
    constructor
    · rintro ⟨e, he, hentry⟩
      obtain ⟨hs, hne, hcE⟩ :=
        (sessionEntry_eq_some (fun e => (refKey e).isSome) e sid).mp hentry
      exact ⟨e, he, hs, hne, hcE⟩
    · rintro ⟨e, he, hs, hne, hcE⟩
      exact ⟨e, he, (sessionEntry_eq_some (fun e => (refKey e).isSome) e sid).mpr
        ⟨hs, hne, hcE⟩⟩

/-- Witness for C6: session `S1` of the no-qualifying-event batch is counted
by the `DescriptiveAnalysis` variant, unfolded through the
characterization. -/
theorem session_counts_characterization_witness :
    ∃ e ∈ [evNoSimon], e.session_id = some "S1" ∧ "S1" ≠ "" ∧
      (refKey e).isSome = true :=
  (session_counts_characterization [evNoSimon] "S1").2.mp (by decide)

/-- C7: Pearson correlation returns a structured error record exactly on
degenerate input — unequal lengths, fewer than 2 pairwise-finite pairs, or
zero standard deviation (zero variance) in either series after pairwise
filtering — and otherwise returns a numeric result record carrying the pair
count `n`, the significance flag at `α = 0.05`, and the descriptive strength
label; it never throws. -/
theorem pearson_error_structure (x y : List JSNum) :
    ((∃ msg, calculatePearsonCorrelation x y = .err msg) ↔ pearsonDegenerate x y) ∧
    (pearsonDegenerate x y ∨
      ∃ r, calculatePearsonCorrelation x y = .ok r ∧
        r.n = (validPairsOf x y).length ∧ (r.significant ↔ r.pValue < 0.05) ∧
        r.strength = getCorrelationStrength |r.correlation|) := by
  by_cases hg1 : x.length ≠ y.length ∨ x.length < 2
  · have herr : calculatePearsonCorrelation x y =
        .err "Insufficient data for Pearson correlation (need at least 2 pairs)" := by
      simp only [calculatePearsonCorrelation]
      rw [if_pos hg1]
    have hdeg : pearsonDegenerate x y := by
      unfold pearsonDegenerate
      tauto
    exact ⟨⟨fun _ => hdeg, fun _ => ⟨_, herr⟩⟩, Or.inl hdeg⟩
  · simp only [calculatePearsonCorrelation, if_neg hg1]
    by_cases hg2 : (validPairsOf x y).length < 2
    · rw [if_pos hg2]
      have hdeg : pearsonDegenerate x y := by
        unfold pearsonDegenerate
        tauto
      exact ⟨⟨fun _ => hdeg, fun _ => ⟨_, rfl⟩⟩, Or.inl hdeg⟩
    · rw [if_neg hg2]
      have hxne : ¬ (((validPairsOf x y).map Prod.fst).isEmpty = true) := by
        rw [List.isEmpty_iff, List.map_eq_nil_iff]
        intro hnil
        rw [hnil] at hg2
        simp at hg2
      have hyne : ¬ (((validPairsOf x y).map Prod.snd).isEmpty = true) := by
        rw [List.isEmpty_iff, List.map_eq_nil_iff]
        intro hnil
        rw [hnil] at hg2
        simp at hg2
      have hvar : (calculateStandardDeviation (((validPairsOf x y).map Prod.fst).map some) = 0 ∨
          calculateStandardDeviation (((validPairsOf x y).map Prod.snd).map some) = 0) ↔
          (popVarianceQ ((validPairsOf x y).map Prod.fst) = 0 ∨
            popVarianceQ ((validPairsOf x y).map Prod.snd) = 0) := by
        rw [stdDev_map_some_eq_zero_iff _ hxne, stdDev_map_some_eq_zero_iff _ hyne]
      by_cases hg3 : calculateStandardDeviation (((validPairsOf x y).map Prod.fst).map some) = 0 ∨
          calculateStandardDeviation (((validPairsOf x y).map Prod.snd).map some) = 0
      · rw [if_pos hg3]
        have hdeg : pearsonDegenerate x y := by
          unfold pearsonDegenerate
          rcases hvar.mp hg3 with hz | hz
          · tauto
          · tauto
        exact ⟨⟨fun _ => hdeg, fun _ => ⟨_, rfl⟩⟩, Or.inl hdeg⟩
      · rw [if_neg hg3]
        have hndeg : ¬ pearsonDegenerate x y := by
          unfold pearsonDegenerate
          push_neg
          push_neg at hg1
          refine ⟨hg1.1, hg1.2, by omega, ?_, ?_⟩
          · intro hz
            exact hg3 (Or.inl ((stdDev_map_some_eq_zero_iff _ hxne).mpr hz))
          · intro hz
            exact hg3 (Or.inr ((stdDev_map_some_eq_zero_iff _ hyne).mpr hz))
        refine ⟨⟨?_, fun hdeg => absurd hdeg hndeg⟩, ?_⟩
        · rintro ⟨msg, hmsg⟩
          cases hmsg
        · exact Or.inr ⟨_, rfl, rfl, Iff.rfl, rfl⟩

/-- Witness for C7: a single-pair input is degenerate (fewer than 2 pairs)
and the function reports the structured error. -/
theorem pearson_error_structure_witness :
    ∃ msg, calculatePearsonCorrelation [some 1] [some 1] = .err msg :=
  (pearson_error_structure [some 1] [some 1]).1.mpr (Or.inr (Or.inl (by norm_num)))

/-- C8: the chi-square test on the 2×2 contingency table with identical
row/column proportions `{A:{g1:10, g2:10}, B:{g1:10, g2:10}}` returns
statistic `0`, p-value `1`, and a negative significance flag. -/
theorem chi_square_uniform_table :
    ∃ r, performChiSquare chiTable = .ok r ∧ r.chiSquare = 0 ∧
      r.degreesOfFreedom = 1 ∧ r.pValue = 1 ∧ ¬ r.significant := by
  have hA1 : cellOf chiTable "A" "g1" = 10 := by decide
  have hA2 : cellOf chiTable "A" "g2" = 10 := by decide
  have hB1 : cellOf chiTable "B" "g1" = 10 := by decide
  have hB2 : cellOf chiTable "B" "g2" = 10 := by decide
  have hcats : catsOf chiTable = ["A", "B"] := by decide
  have hgroups : groupsOf chiTable = ["g1", "g2"] := by decide
  have hrA : rowTotal chiTable "A" = 20 := by
    norm_num [rowTotal, hgroups, hA1, hA2, List.foldl]
  have hrB : rowTotal chiTable "B" = 20 := by
    norm_num [rowTotal, hgroups, hB1, hB2, List.foldl]
  have hc1 : colTotal chiTable "g1" = 20 := by
    norm_num [colTotal, hcats, hA1, hB1, List.foldl]
  have hc2 : colTotal chiTable "g2" = 20 := by
    norm_num [colTotal, hcats, hA2, hB2, List.foldl]
  have hg : grandTotal chiTable = 40 := by
    norm_num [grandTotal, hcats, hrA, hrB, List.foldl]
  have hstat : chiSquareStatistic chiTable = 0 := by
    norm_num [chiSquareStatistic, hcats, hgroups, List.foldl, hrA, hrB, hc1, hc2, hg,
      hA1, hA2, hB1, hB2]
  have hok : performChiSquare chiTable = .ok
      ⟨chiSquareStatistic chiTable,
        ((catsOf chiTable).length - 1) * ((groupsOf chiTable).length - 1),
        1 - chiSquareCDF ((chiSquareStatistic chiTable : ℚ) : ℝ)
          ((((catsOf chiTable).length - 1) * ((groupsOf chiTable).length - 1) : ℕ) : ℝ),
        1 - chiSquareCDF ((chiSquareStatistic chiTable : ℚ) : ℝ)
          ((((catsOf chiTable).length - 1) * ((groupsOf chiTable).length - 1) : ℕ) : ℝ)
          < 0.05⟩ := by
    rw [performChiSquare, if_neg (by rw [hcats]; norm_num),
      if_neg (by rw [hgroups]; norm_num), if_neg (by rw [hg]; norm_num)]
  have hcdf : chiSquareCDF ((chiSquareStatistic chiTable : ℚ) : ℝ)
      ((((catsOf chiTable).length - 1) * ((groupsOf chiTable).length - 1) : ℕ) : ℝ) = 0 := by
    rw [hstat, chiSquareCDF, if_pos]
    · norm_num
  refine ⟨_, hok, hstat, by rw [hcats, hgroups]; rfl, by rw [hcdf]; norm_num, ?_⟩
  show ¬ (1 - chiSquareCDF _ _ < 0.05)
  rw [hcdf]
  norm_num

/-- C9: simple linear regression on `x = [1,2,3,4]`, `y = [2,4,6,8]` returns
slope exactly `2`, intercept exactly `0`, and R² exactly `1`. -/
theorem simple_regression_exact :
    ∃ r, performSimpleLinearRegression regX4 regY4 = .ok r ∧
      r.slope = 2 ∧ r.intercept = 0 ∧ r.rSquared = 1 := by
  have hvp : validPairsOf regX4 regY4 = [(1, 2), (2, 4), (3, 6), (4, 8)] := by decide
  have hmx : calculateMean [some (1 : ℚ), some 2, some 3, some 4] = 5/2 := by
    have hf : jsFilter [some (1 : ℚ), some 2, some 3, some 4] = [1, 2, 3, 4] := by decide
    norm_num [calculateMean, hf, List.sum_cons, List.sum_nil]
  have hmy : calculateMean [some (2 : ℚ), some 4, some 6, some 8] = 5 := by
    have hf : jsFilter [some (2 : ℚ), some 4, some 6, some 8] = [2, 4, 6, 8] := by decide
    norm_num [calculateMean, hf, List.sum_cons, List.sum_nil]
  have hnum : regNumerator [(1, 2), (2, 4), (3, 6), (4, 8)] = 10 := by
    norm_num [regNumerator, List.foldl, List.map, hmx, hmy]
  have hden : regDenominator [(1, 2), (2, 4), (3, 6), (4, 8)] = 5 := by
    norm_num [regDenominator, List.foldl, List.map, hmx]
  have hslope : regSlope [(1, 2), (2, 4), (3, 6), (4, 8)] = 2 := by
    rw [regSlope, hnum, hden]; norm_num
  have hint : regIntercept [(1, 2), (2, 4), (3, 6), (4, 8)] = 0 := by
    rw [regIntercept]
    norm_num [List.map, hmx, hmy, hslope]
  have hss : regSSRes [(1, 2), (2, 4), (3, 6), (4, 8)] = 0 := by
    norm_num [regSSRes, List.foldl, hint, hslope]
  have hsstot : regSSTot [(1, 2), (2, 4), (3, 6), (4, 8)] = 20 := by
    norm_num [regSSTot, List.foldl, List.map, hmy]
  have hr2 : regRSquared [(1, 2), (2, 4), (3, 6), (4, 8)] = 1 := by
    rw [regRSquared, if_neg (by rw [hsstot]; norm_num), hss, hsstot]; norm_num
  have h1 : ¬(regX4.length ≠ regY4.length ∨ regX4.length < 2) := by decide
  have h2 : ¬((validPairsOf regX4 regY4).length < 2) := by decide
  have h3 : ¬(regDenominator (validPairsOf regX4 regY4) = 0) := by
    rw [hvp, hden]; norm_num
  have hok : performSimpleLinearRegression regX4 regY4 = .ok
      ⟨regIntercept (validPairsOf regX4 regY4), regSlope (validPairsOf regX4 regY4),
        regRSquared (validPairsOf regX4 regY4), (validPairsOf regX4 regY4).length,
        regSESlope (validPairsOf regX4 regY4), regSEIntercept (validPairsOf regX4 regY4),
        regTSlope (validPairsOf regX4 regY4), regTIntercept (validPairsOf regX4 regY4),
        regPValueSlope (validPairsOf regX4 regY4),
        regPValueIntercept (validPairsOf regX4 regY4),
        regPValueSlope (validPairsOf regX4 regY4) < 0.05,
        regPredictedLine (validPairsOf regX4 regY4)⟩ := by
    simp only [performSimpleLinearRegression]
    rw [if_neg h1, if_neg h2, if_neg h3]
  exact ⟨_, hok, by rw [hvp, hslope], by rw [hvp, hint], by rw [hvp, hr2]⟩

/-- C10: every descriptive-statistics helper returns `0` — and the mode
returns `null` — on an input with no finite values (empty, or all
`NaN`/`Infinity`), so "no data" is indistinguishable from a genuine zero at
this interface. -/
theorem empty_input_stats (xs : List JSNum) (p : ℚ) (h : jsFilter xs = []) :
    calculateMean xs = 0 ∧ calculateMedian xs = 0 ∧ calculateMode xs = none ∧
      calculateStandardDeviation xs = 0 ∧ calculateVariance xs = 0 ∧
      calculatePercentile xs p = 0 := by
  have he : (jsFilter xs).isEmpty = true := by rw [h]; rfl
  have hsd : calculateStandardDeviation xs = 0 := by
    simp only [calculateStandardDeviation]
    rw [if_pos he]
  refine ⟨?_, ?_, ?_, hsd, ?_, ?_⟩
  · simp only [calculateMean]; rw [if_pos he]
  · simp only [calculateMedian]; rw [if_pos he]
  · simp only [calculateMode]; rw [if_pos he]
  · simp only [calculateVariance]
    by_cases hx : xs.isEmpty = true
    · rw [if_pos hx]
    · rw [if_neg hx, hsd]; ring
  · simp only [calculatePercentile]; rw [if_pos he]

/-- Witness for C10: a single-`NaN` input has no finite values, and every
helper returns its zero/null default on it. -/
theorem empty_input_stats_witness :
    jsFilter [(none : JSNum)] = [] ∧
      (calculateMean [(none : JSNum)] = 0 ∧ calculateMedian [(none : JSNum)] = 0 ∧
        calculateMode [(none : JSNum)] = none ∧
        calculateStandardDeviation [(none : JSNum)] = 0 ∧
        calculateVariance [(none : JSNum)] = 0 ∧
        calculatePercentile [(none : JSNum)] 50 = 0) :=
  ⟨rfl, empty_input_stats [(none : JSNum)] 50 rfl⟩

end SphereGame
